import Mathlib

/-!
Verification of the ByteDatePicker component (src/ByteDatePicker.tsx).

The file embeds the calendar arithmetic and the view-state controller of the
date-picker component in Lean.  JavaScript `Date` values constructed by the
component via `new Date(year, month, day)` are modelled as civil-calendar
triples (`JSDate`): the ECMAScript constructor first resolves two-digit years
(0..99 become 1900+year, `MakeFullYear`), then normalises month overflow by
floor-division and day overflow by borrowing/carrying whole months
(`MakeDay`).  All dates built by the component are local midnights, so the
epoch-millisecond comparison used by `<` on `Date` objects coincides with
lexicographic comparison of the (year, month, day) triples.  Strings are
modelled as `List Char`; `String.prototype.replace` with a global literal
pattern is the leftmost non-overlapping textual replacement `replaceAll`.
All recursive functions use explicit fuel so that they evaluate by `decide`.
-/

/-- A civil calendar date as observed through `getFullYear` / `getMonth` /
`getDate` of a JavaScript `Date` constructed at local midnight.  `month` is
zero-based. -/
structure JSDate where
  year : Int
  month : Nat
  day : Int
deriving DecidableEq, Repr

/-- ECMAScript `MakeFullYear`: integer years 0..99 denote 1900..1999 in the
`Date(year, month, day)` constructor. -/
def makeFullYear (y : Int) : Int :=
  if 0 ≤ y ∧ y ≤ 99 then 1900 + y else y

/-- Gregorian leap-year rule, as in ECMAScript `DaysInYear` (divisible by 4,
except centuries not divisible by 400). -/
def isLeapYear (y : Int) : Bool :=
  decide (y % 4 = 0 ∧ (y % 100 ≠ 0 ∨ y % 400 = 0))

/-- Length of the zero-based month `m` of year `y`, as in ECMAScript
`DaysInMonth`. -/
def monthLength (y : Int) (m : Nat) : Int :=
  if m = 1 then (if isLeapYear y then 29 else 28)
  else if m = 3 ∨ m = 5 ∨ m = 8 ∨ m = 10 then 30
  else 31

/-- Step one month backwards, keeping the month index in 0..11. -/
def prevMonth (y : Int) (m : Nat) : Int × Nat :=
  if m = 0 then (y - 1, 11) else (y, m - 1)

/-- Step one month forwards, keeping the month index in 0..11. -/
def nextMonth (y : Int) (m : Nat) : Int × Nat :=
  if m = 11 then (y + 1, 0) else (y, m + 1)

/-- Normalise a day-of-month that may lie outside 1..monthLength by borrowing
or carrying whole months (the day-overflow part of ECMAScript `MakeDay`).
The first argument is fuel; each step moves the day by at least 28, so
`d.natAbs + 2` steps always suffice. -/
def normD : Nat → Int → Nat → Int → Int × Nat × Int
  | 0, y, m, d => (y, m, d)
  | fuel+1, y, m, d =>
    if d < 1 then
      let p := prevMonth y m
      normD fuel p.1 p.2 (d + monthLength p.1 p.2)
    else if monthLength y m < d then
      let q := nextMonth y m
      normD fuel q.1 q.2 (d - monthLength y m)
    else (y, m, d)

/-- The civil triple produced by `new Date(year, month, day)`: two-digit-year
resolution, then floor-division month normalisation, then day normalisation. -/
def mkDate (year month day : Int) : JSDate :=
  let yr := makeFullYear year
  let ym := yr + month.fdiv 12
  let mn := (month.emod 12).toNat
  let r := normD (day.natAbs + 2) ym mn day
  ⟨r.1, r.2.1, r.2.2⟩

/-- Source `getDaysInMonth(year, month)`: `new Date(year, month + 1, 0).getDate()`. -/
def getDaysInMonth (year month : Int) : Int :=
  (mkDate year (month + 1) 0).day

/-- Comparison of two midnight `Date` values by absolute instant (`a < b` on
`Date` objects compares epoch milliseconds, which for midnights is the
lexicographic order of the civil triples). -/
def jsDateLtb (a b : JSDate) : Bool :=
  a.year < b.year ||
    (a.year == b.year &&
      ((a.month < b.month) || (a.month == b.month && a.day < b.day)))

/-- Source `isDateInRange(date)`: `if (min && date < min) return false;
if (max && date > max) return false; return true;` with the (already
normalised) optional bounds. -/
def isDateInRange (minB maxB : Option JSDate) (date : JSDate) : Bool :=
  if Option.any (fun mn => jsDateLtb date mn) minB then false
  else if Option.any (fun mx => jsDateLtb mx date) maxB then false
  else true

/-- The three grid views of the popup. -/
inductive ViewMode where
  | days
  | months
  | years
deriving DecidableEq, Repr

/-- Direction argument of the navigation handlers. -/
inductive NavDir where
  | prev
  | next
deriving DecidableEq, Repr

/-- The configuration of the bounded component variant, with the bounds
already normalised (`normalizeToDate`; an unparseable bound is `none`). -/
structure PickerConfig where
  includeDays : Bool
  minDate : Option JSDate
  maxDate : Option JSDate
  formatString : Option (List Char)
  placeholder : List Char
  disabled : Bool
deriving DecidableEq, Repr

/-- The mutable state of the component: the five `useState` cells. -/
structure PickerState where
  selectedDate : Option JSDate
  currentYear : Int
  currentMonth : Int
  isOpen : Bool
  viewMode : ViewMode
deriving DecidableEq, Repr

/-- JavaScript `a || b` on an optional number (`undefined`, `0` and `NaN` are
falsy). -/
def jsOrInt (a : Option Int) (b : Int) : Int :=
  match a with
  | none => b
  | some x => if x = 0 then b else x

/-- The `useState` initialisers of the bounded variant:
`selectedDate = value ?? null`, `currentYear = value?.getFullYear() || today`,
`currentMonth = value?.getMonth() || today`, closed popup, initial view mode
from the day-granularity flag. -/
def initialState (cfg : PickerConfig) (today : JSDate) (valueOpt : Option JSDate) :
    PickerState :=
  { selectedDate := valueOpt
  , currentYear := jsOrInt (valueOpt.map (fun v => v.year)) today.year
  , currentMonth := jsOrInt (valueOpt.map (fun v => (v.month : Int))) (today.month : Int)
  , isOpen := false
  , viewMode := if cfg.includeDays then ViewMode.days else ViewMode.months }

/-- The `useEffect` with dependency `[value]` of the bounded variant:
`setSelectedDate(value ?? null)` and, when the value is present, resync the
view cursor to its year and month. -/
def applyValueEffect (st : PickerState) (valueOpt : Option JSDate) : PickerState :=
  match valueOpt with
  | none => { st with selectedDate := none }
  | some v =>
    { st with selectedDate := some v
            , currentYear := v.year
            , currentMonth := (v.month : Int) }

/-- The state of the bounded component after creation: the initialisers run
for the first render and React then runs the `[value]` effect on mount. -/
def createComponent (cfg : PickerConfig) (today : JSDate) (valueOpt : Option JSDate) :
    PickerState :=
  applyValueEffect (initialState cfg today valueOpt) valueOpt

/-- Source `handleDaySelect(day)` of the bounded variant.  The second
component of the result records the `onChange` invocations, in order. -/
def handleDaySelect (cfg : PickerConfig) (st : PickerState) (day : Int) :
    PickerState × List (Option JSDate) :=
  let newDate := mkDate st.currentYear st.currentMonth day
  if !(isDateInRange cfg.minDate cfg.maxDate newDate) then (st, [])
  else
    ({ st with selectedDate := some newDate
             , isOpen := false
             , viewMode := if cfg.includeDays then ViewMode.days else ViewMode.months },
     [some newDate])

/-- Source `handleMonthSelect(monthIndex)` of the bounded variant. -/
def handleMonthSelect (cfg : PickerConfig) (st : PickerState) (monthIndex : Int) :
    PickerState × List (Option JSDate) :=
  if cfg.includeDays then
    ({ st with currentMonth := monthIndex, viewMode := ViewMode.days }, [])
  else
    let newDate := mkDate st.currentYear monthIndex 1
    if !(isDateInRange cfg.minDate cfg.maxDate newDate) then (st, [])
    else
      ({ st with selectedDate := some newDate, isOpen := false }, [some newDate])

/-- Source `handleYearSelect(year)`. -/
def handleYearSelect (st : PickerState) (year : Int) : PickerState :=
  { st with currentYear := year, viewMode := ViewMode.months }

/-- Source `navigateYear(direction)`: 20 years per step in the years grid,
1 year per step otherwise. -/
def navigateYear (st : PickerState) (dir : NavDir) : PickerState :=
  let increment : Int := if st.viewMode = ViewMode.years then 20 else 1
  { st with currentYear :=
      st.currentYear + (match dir with | NavDir.prev => -increment | NavDir.next => increment) }

/-- Source `navigateMonth(direction)`: wraparound at month indices 11 and 0
with the year adjusted by ±1. -/
def navigateMonth (st : PickerState) (dir : NavDir) : PickerState :=
  match dir with
  | NavDir.next =>
    if st.currentMonth = 11 then
      { st with currentMonth := 0, currentYear := st.currentYear + 1 }
    else { st with currentMonth := st.currentMonth + 1 }
  | NavDir.prev =>
    if st.currentMonth = 0 then
      { st with currentMonth := 11, currentYear := st.currentYear - 1 }
    else { st with currentMonth := st.currentMonth - 1 }

/-- Source `yearRange`: `Array.from({length: 20}, (_, i) => currentYear - 10 + i)`. -/
def yearRange (currentYear : Int) : List Int :=
  (List.range 20).map (fun i : Nat => currentYear - 10 + (i : Int))

/-- Disabled flag of a month-grid cell of the bounded variant:
`!isDateInRange(new Date(currentYear, index, 1))`. -/
def monthCellDisabled (cfg : PickerConfig) (st : PickerState) (index : Int) : Bool :=
  !(isDateInRange cfg.minDate cfg.maxDate (mkDate st.currentYear index 1))

/-- Disabled flag of a year-grid cell of the bounded variant:
`!isDateInRange(new Date(year, 0, 1))`. -/
def yearCellDisabled (cfg : PickerConfig) (year : Int) : Bool :=
  !(isDateInRange cfg.minDate cfg.maxDate (mkDate year 0 1))

/-- A decimal digit character, `'0'` .. `'9'`. -/
def digitChar (n : Nat) : Char :=
  Char.ofNat (48 + n)

/-- Decimal digits of a natural number, most significant first.  The first
argument is fuel (`n + 1` suffices since the value shrinks by division
by 10). -/
def natDigitsAux : Nat → Nat → List Char
  | 0, _ => []
  | fuel+1, n =>
    if n < 10 then [digitChar n]
    else natDigitsAux fuel (n / 10) ++ [digitChar (n % 10)]

/-- Decimal digits of a natural number. -/
def natDigits (n : Nat) : List Char :=
  natDigitsAux (n + 1) n

/-- JavaScript `Number.prototype.toString` on an integer: decimal digits with
a leading minus sign when negative. -/
def intStr (i : Int) : List Char :=
  if i < 0 then '-' :: natDigits i.natAbs else natDigits i.toNat

/-- JavaScript `String(n).padStart(2, "0")`. -/
def pad2 (i : Int) : List Char :=
  let s := intStr i
  List.replicate (2 - s.length) '0' ++ s

/-- The literal pattern of the regular expression `/yyyy/g`. -/
def tokY : List Char := ['y', 'y', 'y', 'y']

/-- The literal pattern of the regular expression `/mm/g`. -/
def tokM : List Char := ['m', 'm']

/-- The literal pattern of the regular expression `/dd/g`. -/
def tokD : List Char := ['d', 'd']

/-- `pat` is a prefix of `s`. -/
def startsWith : List Char → List Char → Bool
  | [], _ => true
  | _ :: _, [] => false
  | p :: ps, c :: cs => p == c && startsWith ps cs

/-- Leftmost non-overlapping replacement of every occurrence of the literal
pattern `pat` by `rep` (JavaScript `s.replace(/pat/g, rep)` for a literal
pattern).  The first argument is fuel; `s.length` suffices since every step
consumes at least one character of `s`. -/
def replaceAllF : Nat → List Char → List Char → List Char → List Char
  | 0, _, _, s => s
  | _+1, _, _, [] => []
  | fuel+1, pat, rep, c :: rest =>
    if !pat.isEmpty && startsWith pat (c :: rest) then
      rep ++ replaceAllF fuel pat rep ((c :: rest).drop pat.length)
    else c :: replaceAllF fuel pat rep rest

/-- Replace every occurrence of `pat` in `s` by `rep`. -/
def replaceAll (pat rep s : List Char) : List Char :=
  replaceAllF s.length pat rep s

/-- Source `formatDateByString(date, format)`:
`format.replace(/yyyy/g, yyyy).replace(/mm/g, mm).replace(/dd/g, dd)` where
`yyyy = date.getFullYear().toString()` (unpadded),
`mm = String(date.getMonth() + 1).padStart(2, "0")` and
`dd = String(date.getDate()).padStart(2, "0")`. -/
def formatDateByString (date : JSDate) (format : List Char) : List Char :=
  let yyyy := intStr date.year
  let mm := pad2 ((date.month : Int) + 1)
  let dd := pad2 date.day
  replaceAll tokD dd (replaceAll tokM mm (replaceAll tokY yyyy format))

/-- One left-to-right pass substituting, at each position, the token `yyyy`
by `ys`, `mm` by `ms` or `dd` by `ds`, and copying any other character
unchanged.  This is the specification-side reading of pattern formatting.
Fuel-indexed; `s.length` suffices. -/
def specSubstF : Nat → List Char → List Char → List Char → List Char → List Char
  | 0, _, _, _, s => s
  | _+1, _, _, _, [] => []
  | fuel+1, ys, ms, ds, c :: r =>
    if startsWith tokY (c :: r) then ys ++ specSubstF fuel ys ms ds ((c :: r).drop 4)
    else if startsWith tokM (c :: r) then ms ++ specSubstF fuel ys ms ds ((c :: r).drop 2)
    else if startsWith tokD (c :: r) then ds ++ specSubstF fuel ys ms ds ((c :: r).drop 2)
    else c :: specSubstF fuel ys ms ds r

/-- Single-pass token substitution over a pattern. -/
def specSubst (ys ms ds s : List Char) : List Char :=
  specSubstF s.length ys ms ds s

/-- The English month names of the source. -/
def monthNames : List (List Char) :=
  ["January".toList, "February".toList, "March".toList, "April".toList,
   "May".toList, "June".toList, "July".toList, "August".toList,
   "September".toList, "October".toList, "November".toList, "December".toList]

/-- `monthNames[m]`, `"undefined"` out of bounds (JavaScript indexing). -/
def monthName (m : Nat) : List Char :=
  monthNames.getD m "undefined".toList

/-- The built-in verbose format: `"D Month YYYY"` with day granularity,
`"Month YYYY"` otherwise. -/
def defaultFormat (includeDays : Bool) (d : JSDate) : List Char :=
  if includeDays then
    intStr d.day ++ ' ' :: (monthName d.month ++ ' ' :: intStr d.year)
  else monthName d.month ++ ' ' :: intStr d.year

/-- Source `formatDisplay(date)` of the bounded variant on a present date:
the format pattern when supplied and non-empty (the empty string is falsy in
`if (formatString)`), the verbose format otherwise. -/
def formatDisplay (cfg : PickerConfig) (d : JSDate) : List Char :=
  match cfg.formatString with
  | some f => if f.isEmpty then defaultFormat cfg.includeDays d else formatDateByString d f
  | none => defaultFormat cfg.includeDays d

/-- Text of the inline trigger of the bounded variant:
`selectedDate ? formatDisplay(selectedDate) : placeholder`. -/
def triggerTextV2 (cfg : PickerConfig) (st : PickerState) : List Char :=
  match st.selectedDate with
  | some d => formatDisplay cfg d
  | none => cfg.placeholder

/-- `useState` initialiser of the selection in the unbounded variant:
`useState<Date | null>(value || today)`. -/
def initialSelectionV1 (today : JSDate) (valueOpt : Option JSDate) : Option JSDate :=
  some (valueOpt.getD today)

/-- The `[value]` effect of the unbounded variant:
`setSelectedDate(value || null)`. -/
def effectSelectionV1 (_prior : Option JSDate) (valueOpt : Option JSDate) :
    Option JSDate :=
  valueOpt

/-- Selection of the unbounded variant after creation (initialiser, then the
mount run of the `[value]` effect). -/
def createdSelectionV1 (today : JSDate) (valueOpt : Option JSDate) : Option JSDate :=
  effectSelectionV1 (initialSelectionV1 today valueOpt) valueOpt

/-- Text of the inline trigger of the unbounded variant. -/
def triggerTextV1 (placeholder : List Char) (includeDays : Bool)
    (sel : Option JSDate) : List Char :=
  match sel with
  | some d => defaultFormat includeDays d
  | none => placeholder

lemma monthLength_bounds (y : Int) (m : Nat) :
    28 ≤ monthLength y m ∧ monthLength y m ≤ 31 := by
  unfold monthLength
  split_ifs <;> omega

lemma normD_self (fuel : Nat) (y : Int) (m : Nat) (d : Int)
    (h1 : 1 ≤ d) (h2 : d ≤ monthLength y m) :
    normD (fuel + 1) y m d = (y, m, d) := by
  unfold normD
  rw [if_neg (by omega), if_neg (by omega)]

lemma mk_first (y m : Int) (h0 : 0 ≤ m) (h1 : m < 12) :
    mkDate y m 1 = ⟨makeFullYear y, m.toNat, 1⟩ := by
  have hd : m.fdiv 12 = 0 := by
    rw [Int.fdiv_eq_ediv _ (by omega)]
    exact Int.ediv_eq_zero_of_lt h0 (by omega)
  have hm : m.emod 12 = m := Int.emod_eq_of_lt h0 (by omega)
  have hb := monthLength_bounds (makeFullYear y) m.toNat
  simp only [mkDate, hd, hm, add_zero, Int.natAbs_one]
  rw [normD_self _ _ _ _ (by omega) (by omega)]

/-- C1: selecting an out-of-range date is a no-op: in day-granularity mode an
out-of-range day selection, and in month-only mode an out-of-range month
selection, leave the whole state (selection, open flag, cursor, view mode)
unchanged and emit no change callback. -/
theorem outOfRange_noop (cfg : PickerConfig) (st : PickerState) (day mIdx : Int)
    (hd : isDateInRange cfg.minDate cfg.maxDate
        (mkDate st.currentYear st.currentMonth day) = false)
    (hm : isDateInRange cfg.minDate cfg.maxDate (mkDate st.currentYear mIdx 1) = false) :
    (cfg.includeDays = true → handleDaySelect cfg st day = (st, [])) ∧
    (cfg.includeDays = false → handleMonthSelect cfg st mIdx = (st, [])) := by
  constructor
  · intro _
    simp [handleDaySelect, hd]
  · intro h
    simp [handleMonthSelect, hm, h]

/-- C1 witness: with minimum bound 2024-01-10, attempting to select
2024-01-05 changes nothing and fires no callback. -/
theorem outOfRange_noop_w :
    handleDaySelect ⟨true, some ⟨2024, 0, 10⟩, none, none, [], false⟩
        ⟨none, 2024, 0, true, ViewMode.days⟩ 5 =
      (⟨none, 2024, 0, true, ViewMode.days⟩, []) :=
  (outOfRange_noop ⟨true, some ⟨2024, 0, 10⟩, none, none, [], false⟩
    ⟨none, 2024, 0, true, ViewMode.days⟩ 5 0 (by decide) (by decide)).1 rfl

/-- C2: the in-range predicate holds iff the candidate is not strictly before
the minimum and not strictly after the maximum; a candidate equal to a bound
is in range, and absent bounds impose no constraint. -/
theorem inRange_iff (mnB mxB : Option JSDate) (d : JSDate) :
    (isDateInRange mnB mxB d = true ↔
      ((∀ mn, mnB = some mn → jsDateLtb d mn = false) ∧
       (∀ mx, mxB = some mx → jsDateLtb mx d = false))) ∧
    isDateInRange (some d) (some d) d = true ∧
    isDateInRange none none d = true := by
  have hirr : jsDateLtb d d = false := by
    simp [jsDateLtb]
  refine ⟨?_, ?_, ?_⟩
  · cases mnB <;> cases mxB <;> simp [isDateInRange, Option.any]
  · simp [isDateInRange, Option.any, hirr]
  · simp [isDateInRange, Option.any]

/-- C2 witness: with bounds [2024-01-10, 2024-12-31] the lower bound itself
is in range (bounds are inclusive). -/
theorem inRange_iff_w :
    isDateInRange (some ⟨2024, 0, 10⟩) (some ⟨2024, 11, 31⟩) ⟨2024, 0, 10⟩ = true :=
  (inRange_iff (some ⟨2024, 0, 10⟩) (some ⟨2024, 11, 31⟩) ⟨2024, 0, 10⟩).1.mpr
    ⟨fun mn hmn => by injection hmn with h; rw [← h]; decide,
     fun mx hmx => by injection hmx with h; rw [← h]; decide⟩

/-- C4: after creation (initialisers plus the mount run of the `[value]`
effect) and after every later run of that effect, the stored selection equals
the external value exactly, and when the value is present the view cursor
carries its year and month. -/
theorem valueSync (cfg : PickerConfig) (today : JSDate) (valueOpt : Option JSDate)
    (st : PickerState) :
    (createComponent cfg today valueOpt).selectedDate = valueOpt ∧
    (applyValueEffect st valueOpt).selectedDate = valueOpt ∧
    (∀ v, valueOpt = some v →
      (createComponent cfg today valueOpt).currentYear = v.year ∧
      (createComponent cfg today valueOpt).currentMonth = (v.month : Int) ∧
      (applyValueEffect st valueOpt).currentYear = v.year ∧
      (applyValueEffect st valueOpt).currentMonth = (v.month : Int)) := by
  cases valueOpt <;> simp [createComponent, applyValueEffect, initialState]

/-- C4 witness: a January value (month index 0, which is falsy in the
initialiser) still ends up mirrored in selection and cursor after creation. -/
theorem valueSync_w :
    (createComponent ⟨false, none, none, none, [], false⟩ ⟨2025, 9, 11⟩
        (some ⟨2024, 0, 15⟩)).currentYear = 2024 ∧
    (createComponent ⟨false, none, none, none, [], false⟩ ⟨2025, 9, 11⟩
        (some ⟨2024, 0, 15⟩)).currentMonth = 0 := by
  have h := (valueSync ⟨false, none, none, none, [], false⟩ ⟨2025, 9, 11⟩
      (some ⟨2024, 0, 15⟩) ⟨none, 2000, 0, false, ViewMode.months⟩).2.2
      ⟨2024, 0, 15⟩ rfl
  exact ⟨h.1, h.2.1⟩

/-- C7: month navigation wraps 11 → 0 with the year incremented and 0 → 11
with the year decremented; otherwise it shifts the month by ±1 leaving the
year untouched, and the cursor month stays in [0, 11]. -/
theorem navMonth_wrap (st : PickerState) (h0 : 0 ≤ st.currentMonth)
    (h1 : st.currentMonth ≤ 11) :
    (st.currentMonth = 11 →
      navigateMonth st NavDir.next =
        { st with currentMonth := 0, currentYear := st.currentYear + 1 }) ∧
    (st.currentMonth = 0 →
      navigateMonth st NavDir.prev =
        { st with currentMonth := 11, currentYear := st.currentYear - 1 }) ∧
    (st.currentMonth ≠ 11 →
      navigateMonth st NavDir.next = { st with currentMonth := st.currentMonth + 1 }) ∧
    (st.currentMonth ≠ 0 →
      navigateMonth st NavDir.prev = { st with currentMonth := st.currentMonth - 1 }) ∧
    (∀ dir, 0 ≤ (navigateMonth st dir).currentMonth ∧
      (navigateMonth st dir).currentMonth ≤ 11) := by
  refine ⟨fun h => ?_, fun h => ?_, fun h => ?_, fun h => ?_, fun dir => ?_⟩
  · simp [navigateMonth, h]
  · simp [navigateMonth, h]
  · simp [navigateMonth, h]
  · simp [navigateMonth, h]
  · cases dir <;> simp only [navigateMonth] <;> split_ifs <;> simp <;> omega

/-- C7 witness: navigating next from December 2024 lands on January 2025. -/
theorem navMonth_wrap_w :
    navigateMonth ⟨none, 2024, 11, true, ViewMode.days⟩ NavDir.next =
      ⟨none, 2024 + 1, 0, true, ViewMode.days⟩ :=
  (navMonth_wrap ⟨none, 2024, 11, true, ViewMode.days⟩ (by decide) (by decide)).1 rfl

/-- C8: the year grid is the 20 consecutive years cursorYear-10 .. cursorYear+9
with the cursor year as its 11th entry, and year navigation steps by 20 in the
years grid and by 1 otherwise. -/
theorem yearGrid_props (y : Int) (st : PickerState) :
    (yearRange y).length = 20 ∧
    (∀ i : Nat, i < 20 → (yearRange y).getD i 0 = y - 10 + (i : Int)) ∧
    (yearRange y).getD 10 0 = y ∧
    (st.viewMode = ViewMode.years →
      (navigateYear st NavDir.next).currentYear = st.currentYear + 20 ∧
      (navigateYear st NavDir.prev).currentYear = st.currentYear - 20) ∧
    (st.viewMode ≠ ViewMode.years →
      (navigateYear st NavDir.next).currentYear = st.currentYear + 1 ∧
      (navigateYear st NavDir.prev).currentYear = st.currentYear - 1) := by
  have hget : ∀ i : Nat, i < 20 → (yearRange y).getD i 0 = y - 10 + (i : Int) := by
    intro i hi
    rw [yearRange, List.getD_eq_getElem?_getD, List.getElem?_map,
      List.getElem?_range hi]
    rfl
  refine ⟨by rw [yearRange, List.length_map, List.length_range], hget, ?_,
    fun h => ?_, fun h => ?_⟩
  · rw [hget 10 (by omega)]
    omega
  · constructor <;> simp [navigateYear, h] <;> omega
  · constructor <;> simp [navigateYear, h] <;> omega

/-- C8 witness: at cursor year 2024 the grid has 20 entries, its 11th entry is
2024, and next-navigation in the years grid jumps to 2044. -/
theorem yearGrid_props_w :
    (yearRange 2024).length = 20 ∧ (yearRange 2024).getD 10 0 = 2024 ∧
    (navigateYear ⟨none, 2024, 0, true, ViewMode.years⟩ NavDir.next).currentYear =
      2024 + 20 := by
  have h := yearGrid_props 2024 ⟨none, 2024, 0, true, ViewMode.years⟩
  exact ⟨h.1, h.2.2.1, (h.2.2.2.1 rfl).1⟩

/-- C9: created without an external value, both variants end up with no stored
selection (the mount run of the `[value]` effect clears the today-seeded
initial state of the unbounded variant) and the inline trigger shows the
placeholder text. -/
theorem noValue_placeholder (cfg : PickerConfig) (today : JSDate) :
    (createComponent cfg today none).selectedDate = none ∧
    triggerTextV2 cfg (createComponent cfg today none) = cfg.placeholder ∧
    createdSelectionV1 today none = none ∧
    triggerTextV1 cfg.placeholder cfg.includeDays (createdSelectionV1 today none) =
      cfg.placeholder := by
  simp [createComponent, applyValueEffect, initialState, triggerTextV2,
    createdSelectionV1, effectSelectionV1, initialSelectionV1, triggerTextV1]

lemma normD_borrow (fuel : Nat) (y : Int) (m : Nat) (d : Int) (h : d < 1) :
    normD (fuel + 1) y m d =
      normD fuel (prevMonth y m).1 (prevMonth y m).2
        (d + monthLength (prevMonth y m).1 (prevMonth y m).2) := by
  conv_lhs => rw [normD]
  rw [if_pos h]

lemma normD_day0 (Y : Int) (M : Nat) :
    normD 2 Y M 0 =
      ((prevMonth Y M).1, (prevMonth Y M).2,
        monthLength (prevMonth Y M).1 (prevMonth Y M).2) := by
  rw [show (2 : Nat) = 1 + 1 from rfl, normD_borrow _ _ _ _ (by omega)]
  have hb := monthLength_bounds (prevMonth Y M).1 (prevMonth Y M).2
  rw [zero_add]
  exact normD_self 0 _ _ _ (by omega) (by omega)

lemma mk_day0 (y m : Int) (h0 : 0 ≤ m) (h1 : m < 12) :
    mkDate y (m + 1) 0 =
      ⟨makeFullYear y, m.toNat, monthLength (makeFullYear y) m.toNat⟩ := by
  rcases (by omega : m < 11 ∨ m = 11) with h | h
  · have hd : (m + 1).fdiv 12 = 0 := by
      rw [Int.fdiv_eq_ediv _ (by omega)]
      exact Int.ediv_eq_zero_of_lt (by omega) (by omega)
    have hm : (m + 1).emod 12 = m + 1 := Int.emod_eq_of_lt (by omega) (by omega)
    have ht : (m + 1).toNat = m.toNat + 1 := by omega
    have hp : prevMonth (makeFullYear y) (m.toNat + 1) = (makeFullYear y, m.toNat) := by
      unfold prevMonth
      rw [if_neg (by omega)]
      simp
    simp only [mkDate, hd, hm, ht, add_zero, Int.natAbs_zero, Nat.zero_add]
    rw [normD_day0, hp]
  · subst h
    have hd : (11 + 1 : Int).fdiv 12 = 1 := by decide
    have hm : (11 + 1 : Int).emod 12 = 0 := by decide
    have hp : prevMonth (makeFullYear y + 1) 0 = (makeFullYear y + 1 - 1, 11) := by
      unfold prevMonth
      rw [if_pos rfl]
    have hy1 : makeFullYear y + 1 - 1 = makeFullYear y := by ring
    simp only [mkDate, hd, hm, Int.toNat_zero, Int.natAbs_zero, Nat.zero_add]
    rw [normD_day0, hp, hy1]
    rfl

lemma leap_shift (y : Int) (h0 : 1 ≤ y) (h1 : y ≤ 99) :
    isLeapYear (1900 + y) = isLeapYear y := by
  unfold isLeapYear
  rw [decide_eq_decide]
  omega

lemma monthLength_shift (y : Int) (m : Nat) (hy : y ≠ 0) :
    monthLength (makeFullYear y) m = monthLength y m := by
  unfold monthLength
  by_cases h : m = 1
  · rw [if_pos h, if_pos h]
    unfold makeFullYear
    by_cases hr : 0 ≤ y ∧ y ≤ 99
    · rw [if_pos hr, leap_shift y (by omega) (by omega)]
    · rw [if_neg hr]
  · rw [if_neg h, if_neg h]

/-- C6 counterexample: year 0 satisfies the Gregorian leap rule, yet
`getDaysInMonth(0, 1)` returns 28 rather than 29, because the `Date`
constructor resolves the two-digit year 0 to 1900 and February 1900 has 28
days. -/
theorem daysInMonth_year0_cex :
    getDaysInMonth 0 1 = 28 ∧ isLeapYear 0 = true ∧ makeFullYear 0 = 1900 := by
  decide

/-- C6 (amended): for every year other than 0 and every zero-based month in
0..11, `getDaysInMonth` returns a value in {28, 29, 30, 31} equal to the true
Gregorian length of that month, and for February it returns 29 exactly when
the year satisfies the leap-year rule.  (Year 0 is the sole exception: the
constructor resolves it to 1900, whose February has 28 days.) -/
theorem daysInMonth_correct (y m : Int) (h0 : 0 ≤ m) (h1 : m < 12) (hy : y ≠ 0) :
    getDaysInMonth y m = monthLength y m.toNat ∧
    (getDaysInMonth y m = 28 ∨ getDaysInMonth y m = 29 ∨
      getDaysInMonth y m = 30 ∨ getDaysInMonth y m = 31) ∧
    (m = 1 → (getDaysInMonth y m = 29 ↔ isLeapYear y = true)) := by
  have hmain : getDaysInMonth y m = monthLength y m.toNat := by
    unfold getDaysInMonth
    rw [mk_day0 y m h0 h1]
    exact monthLength_shift y m.toNat hy
  refine ⟨hmain, ?_, ?_⟩
  · rw [hmain]
    unfold monthLength
    split_ifs <;> simp
  · intro hm1
    subst hm1
    rw [hmain]
    by_cases hl : isLeapYear y = true
    · simp [monthLength, hl]
    · simp [monthLength, hl]

/-- C6 witness: February of the leap year 2024 has 29 days. -/
theorem daysInMonth_correct_w : getDaysInMonth 2024 1 = 29 :=
  ((daysInMonth_correct 2024 1 (by decide) (by decide) (by decide)).2.2 rfl).mpr
    (by decide)

/-- C3 counterexample: in month-only mode with cursor year 50 and no bounds,
picking month index 5 stores June 1 of year 1950 (the constructor resolves
two-digit years), not June 1 of the cursor year 50, although that date is in
range. -/
theorem monthSelect_remap_cex :
    (handleMonthSelect ⟨false, none, none, none, [], false⟩
        ⟨none, 50, 0, true, ViewMode.months⟩ 5).1.selectedDate = some ⟨1950, 5, 1⟩ ∧
    isDateInRange none none (mkDate 50 5 1) = true ∧
    some (⟨1950, 5, 1⟩ : JSDate) ≠ some (⟨50, 5, 1⟩ : JSDate) := by
  decide

/-- C3 (amended): in month-only mode, picking an in-range month index stores
the 1st of that month of the constructor-resolved cursor year (years 0..99
resolve to 1900+year, other years are unchanged), closes the popup, leaves
the view mode as it was (months), and fires the change callback exactly once
with exactly the stored date. -/
theorem monthSelect_inRange (cfg : PickerConfig) (st : PickerState) (mIdx : Int)
    (h0 : 0 ≤ mIdx) (h1 : mIdx < 12) (hmode : cfg.includeDays = false)
    (hr : isDateInRange cfg.minDate cfg.maxDate (mkDate st.currentYear mIdx 1) = true) :
    handleMonthSelect cfg st mIdx =
      ({ st with
          selectedDate := some ⟨makeFullYear st.currentYear, mIdx.toNat, 1⟩
        , isOpen := false },
       [some ⟨makeFullYear st.currentYear, mIdx.toNat, 1⟩]) := by
  have hk := mk_first st.currentYear mIdx h0 h1
  rw [hk] at hr
  simp [handleMonthSelect, hmode, hk, hr]

/-- C3 witness: month-only mode, no bounds, cursor year 2024: selecting month
index 5 stores June 1 2024, closes the popup and fires the callback once. -/
theorem monthSelect_inRange_w :
    handleMonthSelect ⟨false, none, none, none, [], false⟩
        ⟨none, 2024, 0, true, ViewMode.months⟩ 5 =
      (⟨some ⟨2024, 5, 1⟩, 2024, 0, false, ViewMode.months⟩, [some ⟨2024, 5, 1⟩]) := by
  rw [monthSelect_inRange ⟨false, none, none, none, [], false⟩
    ⟨none, 2024, 0, true, ViewMode.months⟩ 5 (by decide) (by decide) rfl (by decide)]
  decide

/-- C10 counterexample: with minimum bound 1000-01-01 and cursor year 50, the
January cell is not disabled even though January 1 of year 50 is out of
range — the constructor resolves year 50 to 1950, which is inside the
bounds. -/
theorem cellDisabled_remap_cex :
    monthCellDisabled ⟨false, some ⟨1000, 0, 1⟩, none, none, [], false⟩
        ⟨none, 50, 0, true, ViewMode.months⟩ 0 = false ∧
    isDateInRange (some ⟨1000, 0, 1⟩) none ⟨50, 0, 1⟩ = false := by
  decide

/-- C10 (amended): a month cell is disabled iff the 1st of that month of the
constructor-resolved cursor year is out of range, and a year cell iff
January 1 of the resolved year is out of range; for cursor years outside
0..99 the resolved year is the cursor year itself, and any month whose
resolved first day lies strictly before the minimum bound is disabled even
when it contains in-range dates. -/
theorem cellDisabled_firstOfMonth (cfg : PickerConfig) (st : PickerState) (mIdx : Int)
    (h0 : 0 ≤ mIdx) (h1 : mIdx < 12) :
    (monthCellDisabled cfg st mIdx =
      !(isDateInRange cfg.minDate cfg.maxDate
          ⟨makeFullYear st.currentYear, mIdx.toNat, 1⟩)) ∧
    (¬(0 ≤ st.currentYear ∧ st.currentYear ≤ 99) →
      monthCellDisabled cfg st mIdx =
        !(isDateInRange cfg.minDate cfg.maxDate ⟨st.currentYear, mIdx.toNat, 1⟩)) ∧
    (∀ year : Int, yearCellDisabled cfg year =
      !(isDateInRange cfg.minDate cfg.maxDate ⟨makeFullYear year, 0, 1⟩)) ∧
    (∀ mn, cfg.minDate = some mn →
      jsDateLtb ⟨makeFullYear st.currentYear, mIdx.toNat, 1⟩ mn = true →
      monthCellDisabled cfg st mIdx = true) := by
  have hk := mk_first st.currentYear mIdx h0 h1
  refine ⟨?_, fun hy => ?_, fun year => ?_, fun mn hmn hlt => ?_⟩
  · rw [monthCellDisabled, hk]
  · have hmy : makeFullYear st.currentYear = st.currentYear := by
      unfold makeFullYear
      rw [if_neg hy]
    rw [monthCellDisabled, hk, hmy]
  · rw [yearCellDisabled, mk_first year 0 (by omega) (by omega)]
    rfl
  · rw [monthCellDisabled, hk]
    simp [isDateInRange, Option.any, hmn, hlt]

/-- C10 witness: minimum bound 2024-01-10, cursor year 2024: the January cell
is disabled although January 10..31 2024 are in range, because January 1 2024
precedes the bound. -/
theorem cellDisabled_firstOfMonth_w :
    monthCellDisabled ⟨false, some ⟨2024, 0, 10⟩, none, none, [], false⟩
        ⟨none, 2024, 0, true, ViewMode.months⟩ 0 = true :=
  (cellDisabled_firstOfMonth ⟨false, some ⟨2024, 0, 10⟩, none, none, [], false⟩
      ⟨none, 2024, 0, true, ViewMode.months⟩ 0 (by decide) (by decide)).2.2.2
    ⟨2024, 0, 10⟩ rfl (by decide)

lemma startsWith_iff_append (p : List Char) :
    ∀ s, startsWith p s = true ↔ ∃ t, s = p ++ t := by
  induction p with
  | nil =>
    intro s
    simp [startsWith]
  | cons a p ih =>
    intro s
    cases s with
    | nil => simp [startsWith]
    | cons c cs =>
      rw [startsWith]
      simp only [Bool.and_eq_true, beq_iff_eq, ih cs, List.cons_append, List.cons.injEq]
      constructor
      · rintro ⟨h1, t, h2⟩
        exact ⟨t, h1.symm, h2⟩
      · rintro ⟨t, h1, h2⟩
        exact ⟨h1.symm, t, h2⟩

lemma startsWith_nil_false (a : Char) (p : List Char) :
    startsWith (a :: p) [] = false :=
  rfl

lemma startsWith_head_false (a : Char) (p : List Char) (c : Char) (r : List Char)
    (h : a ≠ c) : startsWith (a :: p) (c :: r) = false := by
  rw [startsWith]
  simp [h]

lemma startsWith_single (ch c : Char) (r : List Char) :
    startsWith [ch] (c :: r) = (ch == c) := by
  rw [startsWith]
  simp [startsWith]

lemma replaceAllF_fuel :
    ∀ (f1 f2 : Nat) (pat rep s : List Char), s.length ≤ f1 → s.length ≤ f2 →
      replaceAllF f1 pat rep s = replaceAllF f2 pat rep s := by
  intro f1
  induction f1 with
  | zero =>
    intro f2 pat rep s h1 h2
    have hs : s = [] := by
      cases s with
      | nil => rfl
      | cons c r => simp at h1
    subst hs
    cases f2 with
    | zero => rfl
    | succ k => rfl
  | succ n ih =>
    intro f2 pat rep s h1 h2
    cases s with
    | nil =>
      cases f2 with
      | zero => rfl
      | succ k => rfl
    | cons c rest =>
      cases f2 with
      | zero => simp at h2
      | succ k =>
        rw [replaceAllF, replaceAllF]
        by_cases hcond : (!pat.isEmpty && startsWith pat (c :: rest)) = true
        · rw [if_pos hcond, if_pos hcond]
          have hpat : 1 ≤ pat.length := by
            cases pat with
            | nil => simp at hcond
            | cons a ps => simp
          have hl := List.length_cons c rest
          congr 1
          apply ih
          · simp only [List.length_drop]
            simp at h1
            omega
          · simp only [List.length_drop]
            simp at h2
            omega
        · rw [if_neg hcond, if_neg hcond]
          congr 1
          apply ih
          · simp at h1
            omega
          · simp at h2
            omega

lemma replaceAll_nil (pat rep : List Char) : replaceAll pat rep [] = [] :=
  rfl

lemma replaceAll_step_else (pat rep : List Char) (c : Char) (rest : List Char)
    (h : (!pat.isEmpty && startsWith pat (c :: rest)) = false) :
    replaceAll pat rep (c :: rest) = c :: replaceAll pat rep rest := by
  rw [replaceAll, List.length_cons, replaceAllF, if_neg (by simp [h])]
  rfl

lemma replaceAll_nomatch (pat rep : List Char) (c : Char) (rest : List Char)
    (h : startsWith pat (c :: rest) = false) :
    replaceAll pat rep (c :: rest) = c :: replaceAll pat rep rest :=
  replaceAll_step_else pat rep c rest (by simp [h])

lemma replaceAll_match (pat rep s : List Char) (hp : pat ≠ [])
    (hs : startsWith pat s = true) :
    replaceAll pat rep s = rep ++ replaceAll pat rep (s.drop pat.length) := by
  obtain ⟨t, rfl⟩ := (startsWith_iff_append pat s).mp hs
  cases pat with
  | nil => exact absurd rfl hp
  | cons a ps =>
    rw [List.drop_left]
    rw [replaceAll, List.cons_append, List.length_cons, replaceAllF,
      if_pos (by simpa using hs)]
    have hdrop : ((a :: ps) ++ t).drop (a :: ps).length = t := List.drop_left _ _
    rw [List.cons_append] at hdrop
    rw [hdrop]
    congr 1
    apply replaceAllF_fuel
    · simp only [List.length_append]
      omega
    · exact le_refl _

lemma replaceAll_skip (p0 : Char) (prest rep : List Char) :
    ∀ (a t : List Char), p0 ∉ a →
      replaceAll (p0 :: prest) rep (a ++ t) = a ++ replaceAll (p0 :: prest) rep t := by
  intro a
  induction a with
  | nil =>
    intro t _
    simp
  | cons c a2 ih =>
    intro t ha
    have hc : p0 ≠ c := by
      intro h
      exact ha (by rw [h]; exact List.mem_cons_self c a2)
    have ha2 : p0 ∉ a2 := fun h => ha (List.mem_cons_of_mem c h)
    rw [List.cons_append, replaceAll_nomatch _ _ _ _ (startsWith_head_false _ _ _ _ hc),
      ih t ha2, List.cons_append]

lemma startsWith_single_replaceAll (ch : Char) (pat rep r : List Char)
    (hrep : rep ≠ []) (hch : ∀ c2 ∈ rep, c2 ≠ ch)
    (hr : startsWith [ch] r = false) :
    startsWith [ch] (replaceAll pat rep r) = false := by
  cases r with
  | nil =>
    rw [replaceAll_nil]
    exact hr
  | cons c rest =>
    by_cases hm : (!pat.isEmpty && startsWith pat (c :: rest)) = true
    · have hp : pat ≠ [] := by
        cases pat with
        | nil => simp at hm
        | cons a ps => simp
      have hsw : startsWith pat (c :: rest) = true := by
        cases hsw2 : startsWith pat (c :: rest) with
        | false => rw [hsw2] at hm; simp at hm
        | true => rfl
      rw [replaceAll_match pat rep _ hp hsw]
      cases rep with
      | nil => exact absurd rfl hrep
      | cons e erest =>
        rw [List.cons_append, startsWith_single]
        have : e ≠ ch := hch e (List.mem_cons_self e erest)
        simp [this.symm]
    · rw [replaceAll_step_else _ _ _ _ (by simpa using hm)]
      rw [startsWith_single] at hr ⊢
      exact hr

lemma specSubstF_fuel :
    ∀ (f1 f2 : Nat) (ys ms ds s : List Char), s.length ≤ f1 → s.length ≤ f2 →
      specSubstF f1 ys ms ds s = specSubstF f2 ys ms ds s := by
  intro f1
  induction f1 with
  | zero =>
    intro f2 ys ms ds s h1 h2
    have hs : s = [] := by
      cases s with
      | nil => rfl
      | cons c r => simp at h1
    subst hs
    cases f2 with
    | zero => rfl
    | succ k => rfl
  | succ n ih =>
    intro f2 ys ms ds s h1 h2
    cases s with
    | nil =>
      cases f2 with
      | zero => rfl
      | succ k => rfl
    | cons c rest =>
      cases f2 with
      | zero => simp at h2
      | succ k =>
        simp only [List.length_cons] at h1 h2
        rw [specSubstF, specSubstF]
        by_cases hy : startsWith tokY (c :: rest) = true
        · rw [if_pos hy, if_pos hy]
          congr 1
          apply ih <;> simp only [List.length_drop, List.length_cons] <;> omega
        · rw [if_neg hy, if_neg hy]
          by_cases hm2 : startsWith tokM (c :: rest) = true
          · rw [if_pos hm2, if_pos hm2]
            congr 1
            apply ih <;> simp only [List.length_drop, List.length_cons] <;> omega
          · rw [if_neg hm2, if_neg hm2]
            by_cases hd2 : startsWith tokD (c :: rest) = true
            · rw [if_pos hd2, if_pos hd2]
              congr 1
              apply ih <;> simp only [List.length_drop, List.length_cons] <;> omega
            · rw [if_neg hd2, if_neg hd2]
              congr 1
              apply ih <;> omega

lemma specSubst_nil (ys ms ds : List Char) : specSubst ys ms ds [] = [] :=
  rfl

lemma specSubst_yyyy (ys ms ds s : List Char) (h : startsWith tokY s = true) :
    specSubst ys ms ds s = ys ++ specSubst ys ms ds (s.drop 4) := by
  obtain ⟨t, rfl⟩ := (startsWith_iff_append tokY s).mp h
  have hd : (tokY ++ t).drop 4 = t := List.drop_left tokY t
  rw [hd, specSubst, show tokY ++ t = 'y' :: ('y' :: 'y' :: 'y' :: t) from rfl,
    List.length_cons, specSubstF, if_pos (by simpa using h)]
  have hd2 : ('y' :: 'y' :: 'y' :: 'y' :: t).drop 4 = t := rfl
  rw [hd2]
  congr 1
  apply specSubstF_fuel <;> simp <;> omega

lemma specSubst_mm (ys ms ds s : List Char) (h1 : startsWith tokY s = false)
    (h2 : startsWith tokM s = true) :
    specSubst ys ms ds s = ms ++ specSubst ys ms ds (s.drop 2) := by
  obtain ⟨t, rfl⟩ := (startsWith_iff_append tokM s).mp h2
  have hd : (tokM ++ t).drop 2 = t := List.drop_left tokM t
  rw [hd, specSubst, show tokM ++ t = 'm' :: ('m' :: t) from rfl,
    List.length_cons, specSubstF, if_neg (by simpa using h1),
    if_pos (by simpa using h2)]
  have hd2 : ('m' :: 'm' :: t).drop 2 = t := rfl
  rw [hd2]
  congr 1
  apply specSubstF_fuel <;> simp <;> omega

lemma specSubst_dd (ys ms ds s : List Char) (h1 : startsWith tokY s = false)
    (h2 : startsWith tokM s = false) (h3 : startsWith tokD s = true) :
    specSubst ys ms ds s = ds ++ specSubst ys ms ds (s.drop 2) := by
  obtain ⟨t, rfl⟩ := (startsWith_iff_append tokD s).mp h3
  have hd : (tokD ++ t).drop 2 = t := List.drop_left tokD t
  rw [hd, specSubst, show tokD ++ t = 'd' :: ('d' :: t) from rfl,
    List.length_cons, specSubstF, if_neg (by simpa using h1),
    if_neg (by simpa using h2), if_pos (by simpa using h3)]
  have hd2 : ('d' :: 'd' :: t).drop 2 = t := rfl
  rw [hd2]
  congr 1
  apply specSubstF_fuel <;> simp <;> omega

lemma specSubst_char (ys ms ds : List Char) (c : Char) (rest : List Char)
    (h1 : startsWith tokY (c :: rest) = false)
    (h2 : startsWith tokM (c :: rest) = false)
    (h3 : startsWith tokD (c :: rest) = false) :
    specSubst ys ms ds (c :: rest) = c :: specSubst ys ms ds rest := by
  rw [specSubst, List.length_cons, specSubstF, if_neg (by simp [h1]),
    if_neg (by simp [h2]), if_neg (by simp [h3])]
  rfl

lemma bool_not_true {b : Bool} (h : ¬ b = true) : b = false := by
  cases b
  · rfl
  · exact absurd rfl h

lemma sw_tokY_cons_false (c : Char) (r : List Char) (h : c ≠ 'y') :
    startsWith tokY (c :: r) = false :=
  startsWith_head_false 'y' ['y', 'y', 'y'] c r (fun hh => h hh.symm)

lemma sw_tokM_cons_false (c : Char) (r : List Char) (h : c ≠ 'm') :
    startsWith tokM (c :: r) = false :=
  startsWith_head_false 'm' ['m'] c r (fun hh => h hh.symm)

lemma sw_tokD_cons_false (c : Char) (r : List Char) (h : c ≠ 'd') :
    startsWith tokD (c :: r) = false :=
  startsWith_head_false 'd' ['d'] c r (fun hh => h hh.symm)

lemma sw_tokM_cons_m (r : List Char) :
    startsWith tokM ('m' :: r) = startsWith ['m'] r := by
  rw [show tokM = 'm' :: ['m'] from rfl, startsWith]
  simp

lemma sw_tokD_cons_d (r : List Char) :
    startsWith tokD ('d' :: r) = startsWith ['d'] r := by
  rw [show tokD = 'd' :: ['d'] from rfl, startsWith]
  simp

lemma chain_eq_spec (ys ms ds : List Char)
    (hysne : ys ≠ []) (hmsne : ms ≠ [])
    (hys : ∀ c ∈ ys, c ≠ 'y' ∧ c ≠ 'm' ∧ c ≠ 'd')
    (hms : ∀ c ∈ ms, c ≠ 'y' ∧ c ≠ 'm' ∧ c ≠ 'd') :
    ∀ (n : Nat) (fmt : List Char), fmt.length ≤ n →
      replaceAll tokD ds (replaceAll tokM ms (replaceAll tokY ys fmt)) =
        specSubst ys ms ds fmt := by
  have hysm : 'm' ∉ ys := fun hc => ((hys 'm' hc).2.1) rfl
  have hysd : 'd' ∉ ys := fun hc => ((hys 'd' hc).2.2) rfl
  have hmsd : 'd' ∉ ms := fun hc => ((hms 'd' hc).2.2) rfl
  have hysm2 : ∀ c2 ∈ ys, c2 ≠ 'm' := fun c2 hc => (hys c2 hc).2.1
  have hysd2 : ∀ c2 ∈ ys, c2 ≠ 'd' := fun c2 hc => (hys c2 hc).2.2
  have hmsd2 : ∀ c2 ∈ ms, c2 ≠ 'd' := fun c2 hc => (hms c2 hc).2.2
  intro n
  induction n with
  | zero =>
    intro fmt h
    have hfmt : fmt = [] := by
      cases fmt with
      | nil => rfl
      | cons a b => simp at h
    subst hfmt
    rfl
  | succ n ih =>
    intro fmt hlen
    by_cases hy : startsWith tokY fmt = true
    · obtain ⟨t, rfl⟩ := (startsWith_iff_append tokY fmt).mp hy
      rw [replaceAll_match tokY ys _ (by simp [tokY]) hy, List.drop_left,
        show tokM = 'm' :: ['m'] from rfl,
        replaceAll_skip 'm' ['m'] ms ys _ hysm,
        show tokD = 'd' :: ['d'] from rfl,
        replaceAll_skip 'd' ['d'] ds ys _ hysd,
        specSubst_yyyy ys ms ds _ hy,
        show List.drop 4 (tokY ++ t) = t from rfl]
      congr 1
      have hlt : t.length ≤ n := by
        rw [List.length_append] at hlen
        simp only [tokY, List.length_cons, List.length_nil] at hlen
        omega
      exact ih t hlt
    · have hy' : startsWith tokY fmt = false := bool_not_true hy
      by_cases hm2 : startsWith tokM fmt = true
      · obtain ⟨t, rfl⟩ := (startsWith_iff_append tokM fmt).mp hm2
        rw [show tokM ++ t = 'm' :: ('m' :: t) from rfl] at hy' hlen ⊢
        have hy2 : startsWith tokY ('m' :: t) = false :=
          sw_tokY_cons_false 'm' t (by decide)
        rw [replaceAll_nomatch tokY ys _ _ hy', replaceAll_nomatch tokY ys _ _ hy2,
          replaceAll_match tokM ms ('m' :: 'm' :: replaceAll tokY ys t)
            (by simp [tokM])
            ((startsWith_iff_append tokM _).mpr ⟨replaceAll tokY ys t, rfl⟩),
          show ('m' :: 'm' :: replaceAll tokY ys t).drop tokM.length =
            replaceAll tokY ys t from rfl,
          show tokD = 'd' :: ['d'] from rfl,
          replaceAll_skip 'd' ['d'] ds ms _ hmsd,
          specSubst_mm ys ms ds _ hy' ((startsWith_iff_append tokM _).mpr ⟨t, rfl⟩),
          show ('m' :: 'm' :: t).drop 2 = t from rfl]
        congr 1
        apply ih
        simp only [List.length_cons] at hlen
        omega
      · have hm2' : startsWith tokM fmt = false := bool_not_true hm2
        by_cases hd2 : startsWith tokD fmt = true
        · obtain ⟨t, rfl⟩ := (startsWith_iff_append tokD fmt).mp hd2
          rw [show tokD ++ t = 'd' :: ('d' :: t) from rfl] at hy' hm2' hlen ⊢
          have hy2 : startsWith tokY ('d' :: t) = false :=
            sw_tokY_cons_false 'd' t (by decide)
          have hm3 : startsWith tokM ('d' :: replaceAll tokY ys t) = false :=
            sw_tokM_cons_false 'd' _ (by decide)
          have hm4 : startsWith tokM ('d' :: 'd' :: replaceAll tokY ys t) = false :=
            sw_tokM_cons_false 'd' _ (by decide)
          rw [replaceAll_nomatch tokY ys _ _ hy', replaceAll_nomatch tokY ys _ _ hy2,
            replaceAll_nomatch tokM ms _ _ hm4, replaceAll_nomatch tokM ms _ _ hm3,
            replaceAll_match tokD ds
              ('d' :: 'd' :: replaceAll tokM ms (replaceAll tokY ys t))
              (by simp [tokD])
              ((startsWith_iff_append tokD _).mpr
                ⟨replaceAll tokM ms (replaceAll tokY ys t), rfl⟩),
            show ('d' :: 'd' :: replaceAll tokM ms (replaceAll tokY ys t)).drop
              tokD.length = replaceAll tokM ms (replaceAll tokY ys t) from rfl,
            specSubst_dd ys ms ds _ hy' hm2'
              ((startsWith_iff_append tokD _).mpr ⟨t, rfl⟩),
            show ('d' :: 'd' :: t).drop 2 = t from rfl]
          congr 1
          apply ih
          simp only [List.length_cons] at hlen
          omega
        · have hd2' : startsWith tokD fmt = false := bool_not_true hd2
          cases fmt with
          | nil => rfl
          | cons c r =>
            have hMs : startsWith tokM (c :: replaceAll tokY ys r) = false := by
              by_cases hcm : c = 'm'
              · subst hcm
                rw [sw_tokM_cons_m] at hm2' ⊢
                exact startsWith_single_replaceAll 'm' tokY ys r hysne hysm2 hm2'
              · exact sw_tokM_cons_false c _ hcm
            have hDs : startsWith tokD
                (c :: replaceAll tokM ms (replaceAll tokY ys r)) = false := by
              by_cases hcd : c = 'd'
              · subst hcd
                rw [sw_tokD_cons_d] at hd2' ⊢
                have step1 : startsWith ['d'] (replaceAll tokY ys r) = false :=
                  startsWith_single_replaceAll 'd' tokY ys r hysne hysd2 hd2'
                exact startsWith_single_replaceAll 'd' tokM ms _ hmsne hmsd2 step1
              · exact sw_tokD_cons_false c _ hcd
            rw [replaceAll_nomatch tokY ys _ _ hy',
              replaceAll_nomatch tokM ms _ _ hMs,
              replaceAll_nomatch tokD ds _ _ hDs,
              specSubst_char ys ms ds c r hy' hm2' hd2']
            congr 1
            apply ih
            simp only [List.length_cons] at hlen
            omega

lemma digitChar_ok (n : Nat) (h : n < 10) :
    digitChar n ≠ 'y' ∧ digitChar n ≠ 'm' ∧ digitChar n ≠ 'd' := by
  interval_cases n <;> exact (by decide)

lemma natDigitsAux_chars :
    ∀ (fuel n : Nat) (c : Char), c ∈ natDigitsAux fuel n →
      c ≠ 'y' ∧ c ≠ 'm' ∧ c ≠ 'd' := by
  intro fuel
  induction fuel with
  | zero =>
    intro n c hc
    simp [natDigitsAux] at hc
  | succ f ih =>
    intro n c hc
    rw [natDigitsAux] at hc
    by_cases h : n < 10
    · rw [if_pos h] at hc
      simp at hc
      subst hc
      exact digitChar_ok n h
    · rw [if_neg h] at hc
      rcases List.mem_append.mp hc with hc2 | hc2
      · exact ih _ _ hc2
      · simp at hc2
        subst hc2
        exact digitChar_ok _ (Nat.mod_lt n (by omega))

lemma natDigitsAux_ne_nil (fuel n : Nat) : natDigitsAux (fuel + 1) n ≠ [] := by
  rw [natDigitsAux]
  by_cases h : n < 10
  · rw [if_pos h]
    simp
  · rw [if_neg h]
    simp

lemma intStr_ne_nil (i : Int) : intStr i ≠ [] := by
  unfold intStr natDigits
  by_cases h : i < 0
  · rw [if_pos h]
    simp
  · rw [if_neg h]
    exact natDigitsAux_ne_nil _ _

lemma intStr_chars (i : Int) :
    ∀ c ∈ intStr i, c ≠ 'y' ∧ c ≠ 'm' ∧ c ≠ 'd' := by
  intro c hc
  unfold intStr natDigits at hc
  by_cases h : i < 0
  · rw [if_pos h] at hc
    rcases List.mem_cons.mp hc with hc2 | hc2
    · subst hc2
      exact (by decide)
    · exact natDigitsAux_chars _ _ _ hc2
  · rw [if_neg h] at hc
    exact natDigitsAux_chars _ _ _ hc

lemma pad2_ne_nil (i : Int) : pad2 i ≠ [] := by
  unfold pad2
  intro h
  rcases List.append_eq_nil.mp h with ⟨_, h2⟩
  exact intStr_ne_nil i h2

lemma pad2_chars (i : Int) :
    ∀ c ∈ pad2 i, c ≠ 'y' ∧ c ≠ 'm' ∧ c ≠ 'd' := by
  intro c hc
  unfold pad2 at hc
  rcases List.mem_append.mp hc with hc2 | hc2
  · have : c = '0' := List.eq_of_mem_replicate hc2
    subst this
    exact (by decide)
  · exact intStr_chars i c hc2

/-- C5 counterexample: the year token is not zero-padded to 4 digits —
formatting the 15th of March of year 999 with pattern `yyyy/mm/dd` yields
`999/03/15`, not `0999/03/15` (the code pads only `mm` and `dd`). -/
theorem formatByString_pad_cex :
    formatDateByString ⟨999, 2, 15⟩ ("yyyy/mm/dd".toList) = ("999/03/15".toList) ∧
    ("999/03/15".toList ≠ "0999/03/15".toList) := by
  decide

/-- C5 (amended): for every date and every pattern, the formatter substitutes
in one pass, left to right, each occurrence of `yyyy` by the decimal year
(unpadded; 4 digits exactly for years 1000-9999), each `mm` by the
zero-padded 2-digit 1-based month, and each `dd` by the zero-padded 2-digit
day, copying every other character unchanged; repeated tokens are all
substituted. -/
theorem formatByString_subst (y : Int) (mo : Nat) (d : Int) (fmt : List Char) :
    formatDateByString ⟨y, mo, d⟩ fmt =
      specSubst (intStr y) (pad2 ((mo : Int) + 1)) (pad2 d) fmt :=
  chain_eq_spec (intStr y) (pad2 ((mo : Int) + 1)) (pad2 d)
    (intStr_ne_nil y) (pad2_ne_nil _)
    (intStr_chars y) (pad2_chars _) fmt.length fmt (le_refl _)
